import Mathlib

/-!
Verification of the mac-scan repository's core logic against its
natural-language specification.

The development shallowly embeds the two source files:

* `src/escl_client.py` — the eSCL scan-job client (`ESCLScanner`):
  request construction (`_build_job_xml`), job submission with busy-retry
  and source fallback (`start_job`), document retrieval with best-effort
  release (`fetch_pdf`), and the input-source heuristic
  (`choose_input_source`).
* `src/scan_app.py` — the manual-duplex page interleaver
  (`_combine_duplex_pdfs`).

Python strings are embedded as `List Char` (named `Str`); Python `in`
(substring), `.lower()`, `.startswith`, `.lstrip("/")` are embedded by
the executable functions below. HTTP interactions are embedded as
environment functions mapping each request to an outcome value.
-/

/-- Python strings are modelled as lists of characters. -/
abbrev Str := List Char

/-- Embeds Python `s.lower()` (ASCII case folding, which is all the
heuristic keywords need). -/
def lowerStr (s : Str) : Str := s.map Char.toLower

/-- Embeds Python `s.startswith(t)`: `t` is a leading segment of `s`. -/
def beginsWith : Str → Str → Bool
  | _, [] => true
  | [], _ :: _ => false
  | a :: s, b :: t => a = b && beginsWith s t

/-- Embeds the Python substring test `t in s`: some suffix of `s`
begins with `t`. -/
def containsSub (s t : Str) : Bool :=
  (List.range (s.length + 1)).any fun i => beginsWith (s.drop i) t

/- ===================== DuplexInterleaver ===================== -/

/-- Embeds `ScanApp._combine_duplex_pdfs` from `src/scan_app.py`
(lines 773-826) at the level of page sequences: the back pages are
reversed, then for `i in range(max(front_count, back_count))` the loop
appends `front[i]` when `i < front_count` and `back_pages_reversed[i]`
when `i < back_count`. The PDF reading/writing wrappers around this
loop are I/O plumbing and are not part of the page-ordering algorithm. -/
def _combine_duplex_pdfs {α : Type} (front back : List α) : List α :=
  let back_pages_reversed := back.reverse
  ((List.range (max front.length back.length)).map
    (fun i => front[i]?.toList ++ back_pages_reversed[i]?.toList)).flatten

/-- Structural form of the interleaving loop: take the head of each list
in turn until both are exhausted. Used only as a proof vehicle for
`_combine_duplex_pdfs`. -/
def pairUp {α : Type} : List α → List α → List α
  | [], ys => ys
  | x :: xs, [] => x :: xs
  | x :: xs, y :: ys => x :: y :: pairUp xs ys

/- ===================== ESCLScanner: request XML ===================== -/

/-- Embeds Python `str(dpi)` as interpolated into the request document. -/
def natStr (n : Nat) : Str := (Nat.repr n).toList

/-- Embeds the colour-mode normalisation of `ESCLScanner._build_job_xml`
(src/escl_client.py line 21): Grayscale when the lowercased mode starts
with "gray", Color otherwise. -/
def normalizeColorMode (color_mode : Str) : Str :=
  if beginsWith (lowerStr color_mode) "gray".toList then "Grayscale".toList
  else "Color".toList

/-- Literal chunk of the request document before the input source. -/
def xmlA : Str :=
  ("<?xml version=\"1.0\" encoding=\"UTF-8\"?>\n<scan:ScanSettings xmlns:scan=\"http://schemas.hp.com/imaging/escl/2011/05/03\" xmlns:pwg=\"http://www.pwg.org/schemas/2010/12/sm\">\n  <pwg:Version>2.0</pwg:Version>\n  <pwg:InputSource>").toList

/-- Literal chunk between the input source and the colour mode. -/
def xmlB : Str :=
  "</pwg:InputSource>\n  <pwg:DocumentFormat>application/pdf</pwg:DocumentFormat>\n  ".toList

/-- Opening tag of the colour-mode element. -/
def xmlCMo : Str := "<pwg:ColorMode>".toList

/-- Closing tag of the colour-mode element. -/
def xmlCMc : Str := "</pwg:ColorMode>".toList

/-- Whitespace between the colour-mode and duplex lines. -/
def xmlWS : Str := "\n  ".toList

/-- The fixed duplex line of the request document. -/
def xmlDuplex : Str := "<pwg:Duplex>Simplex</pwg:Duplex>".toList

/-- Literal chunk between the duplex line and the page size. -/
def xmlD : Str := "\n  <pwg:MediaSizeName>".toList

/-- Literal chunk between the page size and the X resolution. -/
def xmlE : Str :=
  "</pwg:MediaSizeName>\n  <scan:Resolution>\n    <scan:XResolution>".toList

/-- Literal chunk between the X resolution and the Y resolution. -/
def xmlF : Str := "</scan:XResolution>\n    <scan:YResolution>".toList

/-- Literal trailing chunk after the Y resolution. -/
def xmlG : Str :=
  "</scan:YResolution>\n  </scan:Resolution>\n  <scan:Intent>Document</scan:Intent>\n</scan:ScanSettings>".toList

/-- Embeds `ESCLScanner._build_job_xml` (src/escl_client.py lines 17-38) as
the concatenation of the f-string's literal chunks with the interpolated
source, normalised colour mode, page size and resolution (the same dpi on
both axes). The trailing Python `.strip()` is a no-op because the document
starts with a "<" and ends with a ">", so it is not modelled. -/
def _build_job_xml (dpi : Nat) (color_mode page_size source : Str) : Str :=
  xmlA ++ (source ++ (xmlB ++ ((xmlCMo ++ (normalizeColorMode color_mode ++ xmlCMc)) ++
    (xmlWS ++ (xmlDuplex ++ (xmlD ++ (page_size ++ (xmlE ++ (natStr dpi ++
      (xmlF ++ (natStr dpi ++ xmlG)))))))))))

/- ===================== ESCLScanner.start_job ===================== -/

/-- Outcome of one `requests.post` call as `start_job` sees it: either an
HTTP response (status code plus optional Location header value), or a
transport exception raised by `requests.post` itself. -/
inductive PostOutcome : Type
  | resp (status : Nat) (location : Option Str)
  | netErr
deriving DecidableEq

/-- Embeds `requests.Response.raise_for_status`: an HTTPError is raised
exactly for 4xx and 5xx status codes. -/
def statusRaises (status : Nat) : Bool := 400 ≤ status && status < 600

/-- Embeds the Python falsy test `if not job_location` on the Location
header value: the header is absent or empty. -/
def locationMissing : Option Str → Bool
  | none => true
  | some l => l.isEmpty

/-- Embeds Python `job_location.lstrip("/")`. -/
def lstripSlashes (l : Str) : Str := l.dropWhile (fun c => c = '/')

/-- Embeds `job_location.startswith("/")`. -/
def startsWithSlash (l : Str) : Bool := beginsWith l "/".toList

/-- Models Python `urljoin(base, rel)` in the one shape `start_job` uses it:
`base` is the client's absolute base endpoint ending in "/" and `rel` is a
plain relative path reference (its leading slashes were just stripped),
for which urljoin appends the reference to the base. Scheme-qualified or
dot-segment references inside a Location header are outside this model. -/
def urljoin (base rel : Str) : Str := base ++ rel

/-- Embeds src/escl_client.py lines 83-84 (and the identical fallback
lines 101-102): a Location value starting with "/" is resolved against the
base endpoint after stripping its leading slashes; any other value is used
verbatim as the job handle. -/
def resolveJobLocation (base loc : Str) : Str :=
  if startsWithSlash loc then urljoin base (lstripSlashes loc) else loc

/-- Embeds `fallback_source = "Feeder" if source == "Platen" else "Platen"`
(src/escl_client.py line 94). -/
def fallbackSourceFor (source : Str) : Str :=
  if source = "Platen".toList then "Feeder".toList else "Platen".toList

/-- Exit state of the busy-retry loop of `start_job` (lines 70-90). -/
inductive LoopExit : Type
  | returned (handle : Str)
  | missingLocation
  | netErr
  | fellThrough (lastErr : Option Nat)
deriving DecidableEq

/-- Trace of one run of the retry loop: its exit, the number of POSTs
issued, and the number of one-second `time.sleep` pauses performed. -/
structure LoopTrace where
  exit : LoopExit
  posts : Nat
  sleeps : Nat
deriving DecidableEq

/-- Checks whether a POST outcome is a 409 device-busy response. -/
def isBusy : PostOutcome → Bool
  | .resp status _ => status == 409
  | .netErr => false

/-- Embeds what one non-busy loop iteration of `start_job` does with the
response (lines 74-90): a transport error propagates; `raise_for_status`
turns any 4xx/5xx into an HTTPError that sets `last_err` and breaks the
loop; an accepted response either raises the uncaught missing-Location
RuntimeError of line 82 or returns the resolved Location. -/
def stepExit (base : Str) : PostOutcome → LoopExit
  | .netErr => .netErr
  | .resp status location =>
    if statusRaises status then .fellThrough (some status)
    else
      match location with
      | none => .missingLocation
      | some l =>
        if l.isEmpty then .missingLocation
        else .returned (resolveJobLocation base l)

/-- Embeds the busy-retry loop of `start_job` (src/escl_client.py
lines 71-90). `post i` is the outcome of the i-th POST of the request
against the chosen source; `remaining` counts iterations still allowed
(6 at the top-level call), `idx` is the current attempt index and
`lastErr` the Python `last_err` variable. A 409 sleeps one second and
retries; anything else is settled by `stepExit`. -/
def retryLoop (base : Str) (post : Nat → PostOutcome) :
    Nat → Nat → Option Nat → LoopTrace
  | 0, _, lastErr => ⟨.fellThrough lastErr, 0, 0⟩
  | remaining + 1, idx, lastErr =>
    if isBusy (post idx) then
      let t := retryLoop base post remaining (idx + 1) lastErr
      ⟨t.exit, t.posts + 1, t.sleeps + 1⟩
    else ⟨stepExit base (post idx), 1, 0⟩

/-- Result of `start_job` as the caller sees it: a job handle, one of the
two propagated exceptions, or the terminal RuntimeError that carries the
primary loop's last HTTP error. -/
inductive StartResult : Type
  | ok (handle : Str)
  | missingLocation
  | netFail
  | failed (lastErr : Option Nat)
deriving DecidableEq

/-- Trace of a full `start_job` run: caller-visible result, POSTs and
sleeps of the primary loop, and the fallback POSTs issued with their
target source. -/
structure SubmitTrace where
  result : StartResult
  primaryPosts : Nat
  sleeps : Nat
  fallbackPosts : Nat
  fallbackSource : Option Str
deriving DecidableEq

/-- Checks that the single fallback POST fails as the fallback block of
`start_job` sees it: transport error, 4xx/5xx status, or a missing/empty
Location (each lands in its `except Exception` clause). -/
def fallbackFails : PostOutcome → Bool
  | .netErr => true
  | .resp status location => statusRaises status || locationMissing location

/-- Embeds the fallback block of `start_job` (src/escl_client.py
lines 92-107): one POST against the flipped source, whose `except
Exception` swallows every failure (transport errors, 4xx/5xx HTTPErrors,
and the fallback's own missing-Location RuntimeError); on fallback failure
the terminal error carrying the primary loop's `last_err` is raised. -/
def fallbackResult (base : Str) (lastErr : Option Nat) (o : PostOutcome) : StartResult :=
  match o with
  | .netErr => .failed lastErr
  | .resp status location =>
    if statusRaises status then .failed lastErr
    else
      match location with
      | none => .failed lastErr
      | some l =>
        if l.isEmpty then .failed lastErr
        else .ok (resolveJobLocation base l)

/-- Embeds `ESCLScanner.start_job` (src/escl_client.py lines 40-107) for an
already-resolved source. `post src i` is the outcome of the i-th POST
submitting a job for input source `src`. The primary loop runs at most 6
attempts against `source`; when it returns or raises, `start_job` is done
with no fallback POST. Only when it falls through (exhausted by busy
responses, or broken by a non-409 HTTPError) does the fallback block POST
once against the flipped source. -/
def start_job (base source : Str) (post : Str → Nat → PostOutcome) : SubmitTrace :=
  let t := retryLoop base (post source) 6 0 none
  match t.exit with
  | .returned handle => ⟨.ok handle, t.posts, t.sleeps, 0, none⟩
  | .missingLocation => ⟨.missingLocation, t.posts, t.sleeps, 0, none⟩
  | .netErr => ⟨.netFail, t.posts, t.sleeps, 0, none⟩
  | .fellThrough lastErr =>
    ⟨fallbackResult base lastErr (post (fallbackSourceFor source) 0),
      t.posts, t.sleeps, 1, some (fallbackSourceFor source)⟩

/-- Environment for the C1 witness: two busy responses, then a 500. -/
def c1Env : Str → Nat → PostOutcome := fun _ i =>
  if i < 2 then PostOutcome.resp 409 none else PostOutcome.resp 500 none

/-- Environment for the C2 witness: every primary POST is busy, the
fallback POST gets a 503. -/
def c2Env : Str → Nat → PostOutcome := fun src _ =>
  if src = "Feeder".toList then PostOutcome.resp 409 none
  else PostOutcome.resp 503 none

/-- Environment for the C3 counterexample: the primary source is accepted
with a missing Location header, while the opposite source would be
accepted with a valid Location. -/
def c3Env : Str → Nat → PostOutcome := fun src _ =>
  if src = "Feeder".toList then PostOutcome.resp 201 none
  else PostOutcome.resp 201 (some "/Jobs/7".toList)

/-- Environment for the C3 witness: success status, missing Location. -/
def c3wEnv : Str → Nat → PostOutcome := fun _ _ => PostOutcome.resp 201 none

/-- Environment for the C7 witness: accepted immediately with a relative
Location header. -/
def c7EnvRel : Str → Nat → PostOutcome := fun _ _ =>
  PostOutcome.resp 201 (some "/Jobs/9".toList)

/-- Environment for the C7 witness: accepted immediately with an absolute
Location header. -/
def c7EnvAbs : Str → Nat → PostOutcome := fun _ _ =>
  PostOutcome.resp 201 (some "http://h/eSCL/Jobs/9".toList)

/- ===================== ESCLScanner.fetch_pdf ===================== -/

/-- Outcome of the streaming GET on the NextDocument sub-resource. -/
inductive FetchOutcome : Type
  | resp (status : Nat) (chunks : List Str)
  | netErr
deriving DecidableEq

/-- Result of `fetch_pdf` as the caller sees it. -/
inductive FetchResult : Type
  | ok (content : Str)
  | httpError (status : Nat)
  | netFail
deriving DecidableEq

/-- Side effects performed by `fetch_pdf`, in order. -/
inductive FetchAction : Type
  | get (url : Str)
  | write (chunk : Str)
  | delete (url : Str)
deriving DecidableEq

/-- Checks whether an action is the job release (DELETE). -/
def isDelete : FetchAction → Bool
  | .delete _ => true
  | _ => false

/-- Embeds Python `job_location.rstrip("/")`. -/
def rstripSlashes (l : Str) : Str := (lstripSlashes l.reverse).reverse

/-- Embeds `ESCLScanner.fetch_pdf` (src/escl_client.py lines 109-135):
GET the NextDocument sub-resource of the job, raise on 4xx/5xx, write each
non-empty 64 KiB chunk to the output file, and in the `finally` block issue
one best-effort DELETE of the job, whose own exception (`relRaises`) is
swallowed by the inner try so it never changes the caller-visible result.
Returns that result together with the ordered action trace. -/
def fetch_pdf (job_location : Str) (out : FetchOutcome) (relRaises : Bool) :
    FetchResult × List FetchAction :=
  let next_doc := rstripSlashes job_location ++ "/NextDocument".toList
  match out with
  | .netErr => (.netFail, [FetchAction.get next_doc, FetchAction.delete job_location])
  | .resp status chunks =>
    if statusRaises status then
      (.httpError status, [FetchAction.get next_doc, FetchAction.delete job_location])
    else
      (.ok (chunks.filter (fun c => !c.isEmpty)).flatten,
        [FetchAction.get next_doc] ++
          (chunks.filter (fun c => !c.isEmpty)).map FetchAction.write ++
          [FetchAction.delete job_location])

/- ===================== choose_input_source ===================== -/

/-- One element of the parsed XML status tree as the structural pass of
`choose_input_source` iterates it: tag name and contained text (Python
`elem.text or ""`). -/
structure XElem where
  tag : Str
  text : Str
deriving DecidableEq

/-- What `choose_input_source` obtains from the device: `get_status` may
raise (`fail`); otherwise `ET.fromstring` on the returned raw text either
fails because the text is not well-formed XML (`parsed = none`) or yields
the elements of `root.iter()` (`parsed = some elems`). -/
inductive StatusFetch : Type
  | fail
  | ok (raw : Str) (parsed : Option (List XElem))
deriving DecidableEq

/-- Embeds the `adf_indicators` list of `choose_input_source`
(src/escl_client.py lines 183-193) over the lowercased raw status text. -/
def adf_indicators (text : Str) : List Bool :=
  [containsSub text "adf".toList && containsSub text "loaded".toList,
   containsSub text "adf".toList && containsSub text "present".toList,
   containsSub text "adf".toList && containsSub text "haspaper".toList,
   containsSub text "feeder".toList && containsSub text "loaded".toList,
   containsSub text "inputsource".toList && containsSub text "feeder".toList,
   containsSub text "media".toList && containsSub text "feeder".toList,
   containsSub text "documentfeeder".toList &&
     (containsSub text "loaded".toList || containsSub text "ready".toList),
   containsSub text "inputtray".toList && containsSub text "adf".toList,
   containsSub text "paper".toList &&
     (containsSub text "adf".toList || containsSub text "feeder".toList)]

/-- Embeds `adf_has_pages = any(adf_indicators)` (line 195), applied to the
raw status text lowercased at line 180. -/
def textualEvidence (raw : Str) : Bool := (adf_indicators (lowerStr raw)).any id

/-- Embeds the structural checks applied to one parsed element inside the
`root.iter()` loop (src/escl_client.py lines 199-212). -/
def elemSignal (e : XElem) : Bool :=
  let tag_lower := lowerStr e.tag
  let text_lower := lowerStr e.text
  (containsSub tag_lower "input".toList && containsSub tag_lower "source".toList &&
     (containsSub text_lower "feeder".toList || containsSub text_lower "adf".toList)) ||
  ((["media", "paper", "document"].any fun kw => containsSub tag_lower kw.toList) &&
   (["loaded", "present", "ready"].any fun st => containsSub text_lower st.toList) &&
   (["adf", "feeder"].any fun src => containsSub tag_lower src.toList))

/-- Embeds the structural pass over `root.iter()` (lines 198-214): the
first element satisfying either check sets the flag and breaks. -/
def structuralEvidence (elems : List XElem) : Bool := elems.any elemSignal

/-- Embeds `ESCLScanner.choose_input_source` (src/escl_client.py
lines 171-222). `ET.fromstring` runs before any keyword check, so a
`get_status` failure or a parse failure both land in the outer `except`
clause and yield Platen; the textual and structural heuristics run only on
well-formed input, combined by OR. -/
def choose_input_source (st : StatusFetch) : Str :=
  match st with
  | .fail => "Platen".toList
  | .ok _ none => "Platen".toList
  | .ok raw (some elems) =>
    if textualEvidence raw || structuralEvidence elems then "Feeder".toList
    else "Platen".toList

/-- Embeds the input-source resolution at the head of `start_job`
(src/escl_client.py lines 53-60): an explicit Feeder or Platen override
wins; anything else (None, "Auto", other strings) auto-detects through
`choose_input_source`. -/
def resolve_input_source (input_source : Option Str) (st : StatusFetch) : Str :=
  if input_source = some "Feeder".toList then "Feeder".toList
  else if input_source = some "Platen".toList then "Platen".toList
  else choose_input_source st

/-- Modelled from the claim C4 wording: textual evidence is a feeder
keyword ("feeder", "adf", "documentfeeder", "inputtray") co-occurring with
a loaded keyword ("loaded", "present", "ready", "haspaper") in the
case-insensitive raw report. Stated for comparison with the source's
`textualEvidence`. -/
def claimTextualEvidence (raw : Str) : Bool :=
  (["feeder", "adf", "documentfeeder", "inputtray"].any fun kw =>
    containsSub (lowerStr raw) kw.toList) &&
  (["loaded", "present", "ready", "haspaper"].any fun kw =>
    containsSub (lowerStr raw) kw.toList)

/-- Modelled from the claim C4 wording: the full decision rule C4 claims
(Feeder only on override Feeder or on claimed textual evidence OR
structural evidence; Platen otherwise). -/
def claimResolve (input_source : Option Str) (st : StatusFetch) : Str :=
  if input_source = some "Feeder".toList then "Feeder".toList
  else if input_source = some "Platen".toList then "Platen".toList
  else
    match st with
    | .fail => "Platen".toList
    | .ok raw none =>
      if claimTextualEvidence raw then "Feeder".toList else "Platen".toList
    | .ok raw (some elems) =>
      if claimTextualEvidence raw || structuralEvidence elems then "Feeder".toList
      else "Platen".toList

/-- Modelled from the amended C4 wording: textual evidence is exactly one
of the nine keyword co-occurrence pairs the code tests, written as a plain
disjunction. -/
def amendedTextualEvidence (raw : Str) : Bool :=
  (containsSub (lowerStr raw) "adf".toList && containsSub (lowerStr raw) "loaded".toList) ||
  (containsSub (lowerStr raw) "adf".toList && containsSub (lowerStr raw) "present".toList) ||
  (containsSub (lowerStr raw) "adf".toList && containsSub (lowerStr raw) "haspaper".toList) ||
  (containsSub (lowerStr raw) "feeder".toList && containsSub (lowerStr raw) "loaded".toList) ||
  (containsSub (lowerStr raw) "inputsource".toList && containsSub (lowerStr raw) "feeder".toList) ||
  (containsSub (lowerStr raw) "media".toList && containsSub (lowerStr raw) "feeder".toList) ||
  (containsSub (lowerStr raw) "documentfeeder".toList &&
    (containsSub (lowerStr raw) "loaded".toList || containsSub (lowerStr raw) "ready".toList)) ||
  (containsSub (lowerStr raw) "inputtray".toList && containsSub (lowerStr raw) "adf".toList) ||
  (containsSub (lowerStr raw) "paper".toList &&
    (containsSub (lowerStr raw) "adf".toList || containsSub (lowerStr raw) "feeder".toList))

theorem flatten_map_range_getElem {α : Type} (l : List α) :
    ((List.range l.length).map (fun i => l[i]?.toList)).flatten = l := by
  induction l with
  | nil => rfl
  | cons x t ih =>
    have h1 : (x :: t).length = t.length + 1 := rfl
    rw [h1, List.range_succ_eq_map, List.map_cons, List.map_map]
    simp only [Function.comp_def, Nat.succ_eq_add_one, List.getElem?_cons_succ,
      List.getElem?_cons_zero, Option.toList_some, List.flatten_cons,
      List.cons_append, List.nil_append]
    rw [ih]

theorem combine_eq_pairUp_aux {α : Type} (xs : List α) :
    ∀ ys : List α,
      ((List.range (max xs.length ys.length)).map
        (fun i => xs[i]?.toList ++ ys[i]?.toList)).flatten = pairUp xs ys := by
  induction xs with
  | nil =>
    intro ys
    simp only [List.length_nil, Nat.zero_max, List.getElem?_nil,
      Option.toList_none, List.nil_append, pairUp]
    exact flatten_map_range_getElem ys
  | cons x s ih =>
    intro ys
    cases ys with
    | nil =>
      simp only [List.length_nil, Nat.max_zero, List.getElem?_nil,
        Option.toList_none, List.append_nil, pairUp]
      exact flatten_map_range_getElem (x :: s)
    | cons y t =>
      have hm : max (x :: s).length (y :: t).length = max s.length t.length + 1 := by
        simp only [List.length_cons]
        exact Nat.succ_max_succ s.length t.length
      rw [hm, List.range_succ_eq_map, List.map_cons, List.map_map]
      simp only [Function.comp_def, Nat.succ_eq_add_one, List.getElem?_cons_succ,
        List.getElem?_cons_zero, Option.toList_some, List.flatten_cons,
        List.cons_append, List.nil_append]
      rw [ih t]
      simp [pairUp]

theorem combine_eq_pairUp {α : Type} (front back : List α) :
    _combine_duplex_pdfs front back = pairUp front back.reverse := by
  unfold _combine_duplex_pdfs
  rw [← List.length_reverse back]
  exact combine_eq_pairUp_aux front back.reverse

theorem pairUp_length {α : Type} (xs : List α) :
    ∀ ys : List α, (pairUp xs ys).length = xs.length + ys.length := by
  induction xs with
  | nil => intro ys; simp [pairUp]
  | cons x s ih =>
    intro ys
    cases ys with
    | nil => simp [pairUp]
    | cons y t =>
      simp only [pairUp, List.length_cons, ih t]
      omega

theorem pairUp_getElem_even {α : Type} (xs : List α) :
    ∀ (ys : List α) (k : Nat), xs.length = ys.length → k < xs.length →
      (pairUp xs ys)[2 * k]? = xs[k]? ∧ (pairUp xs ys)[2 * k + 1]? = ys[k]? := by
  induction xs with
  | nil => intro ys k _ hk; exact absurd hk (Nat.not_lt_zero k)
  | cons x s ih =>
    intro ys k hlen hk
    cases ys with
    | nil => exact absurd hlen (by simp)
    | cons y t =>
      have hp : pairUp (x :: s) (y :: t) = x :: y :: pairUp s t := by
        simp [pairUp]
      cases k with
      | zero => rw [hp]; constructor <;> simp
      | succ k =>
        have hlen' : s.length = t.length := by
          simpa using hlen
        have hk' : k < s.length := Nat.lt_of_succ_lt_succ hk
        obtain ⟨he, ho⟩ := ih t k hlen' hk'
        constructor
        · rw [hp, show 2 * (k + 1) = 2 * k + 1 + 1 by ring,
            List.getElem?_cons_succ, List.getElem?_cons_succ,
            List.getElem?_cons_succ, he]
        · rw [hp, show 2 * (k + 1) + 1 = 2 * k + 1 + 1 + 1 by ring,
            List.getElem?_cons_succ, List.getElem?_cons_succ,
            List.getElem?_cons_succ, ho]

/-- C5: for equal-length front and back inputs of length N, the interleaved
output of `_combine_duplex_pdfs` has length 2N with output[2k] = front[k] and
output[2k+1] = back[N-1-k] for every k in [0,N); for mismatched lengths the
missing counterpart is simply omitted at each position rather than failing
(front=[F1,F2], back=[B1] yields [F1,B1,F2]). -/
theorem C5_duplex_interleave {α : Type} (front back : List α)
    (h : front.length = back.length) (k : Nat) (hk : k < front.length)
    (f1 f2 b1 : α) :
    (_combine_duplex_pdfs front back).length = 2 * front.length ∧
    (_combine_duplex_pdfs front back)[2 * k]? = front[k]? ∧
    (_combine_duplex_pdfs front back)[2 * k + 1]? = back[back.length - 1 - k]? ∧
    _combine_duplex_pdfs [f1, f2] [b1] = [f1, b1, f2] := by
  have hlen' : front.length = back.reverse.length := by
    rw [List.length_reverse]; exact h
  have hpair := pairUp_getElem_even front back.reverse k hlen' hk
  have hkb : k < back.length := h ▸ hk
  refine ⟨?_, ?_, ?_, ?_⟩
  · rw [combine_eq_pairUp, pairUp_length, List.length_reverse, ← h]
    ring
  · rw [combine_eq_pairUp]
    exact hpair.1
  · rw [combine_eq_pairUp, hpair.2]
    exact List.getElem?_reverse hkb
  · rfl

/-- Witness for C5 at front = [10, 20], back = [30, 40], k = 1. -/
theorem C5_duplex_interleave_witness :
    ([10, 20] : List Nat).length = [30, 40].length ∧
    1 < ([10, 20] : List Nat).length ∧
    ((_combine_duplex_pdfs [10, 20] [30, 40]).length = 2 * ([10, 20] : List Nat).length ∧
     (_combine_duplex_pdfs [10, 20] [30, 40])[2 * 1]? = ([10, 20] : List Nat)[1]? ∧
     (_combine_duplex_pdfs [10, 20] [30, 40])[2 * 1 + 1]? =
       ([30, 40] : List Nat)[([30, 40] : List Nat).length - 1 - 1]? ∧
     _combine_duplex_pdfs [7, 8] [9] = [7, 9, 8]) :=
  ⟨by decide, by decide,
    C5_duplex_interleave [10, 20] [30, 40] (by decide) 1 (by decide) 7 8 9⟩

theorem beginsWith_iff : ∀ (t s : Str), beginsWith s t = true ↔ ∃ r, s = t ++ r
  | [], s => by
    constructor
    · intro _
      exact ⟨s, rfl⟩
    · intro _
      cases s <;> rfl
  | b :: t, [] => by
    constructor
    · intro h
      exact absurd h (by simp [beginsWith])
    · rintro ⟨r, hr⟩
      exact absurd hr (by simp)
  | b :: t, a :: s => by
    simp only [beginsWith, Bool.and_eq_true, decide_eq_true_eq]
    constructor
    · rintro ⟨rfl, h⟩
      obtain ⟨r, rfl⟩ := (beginsWith_iff t s).mp h
      exact ⟨r, rfl⟩
    · rintro ⟨r, hr⟩
      injection hr with h1 h2
      subst h1
      exact ⟨rfl, (beginsWith_iff t s).mpr ⟨r, h2⟩⟩

theorem beginsWith_append (s r : Str) : beginsWith (s ++ r) s = true :=
  (beginsWith_iff s (s ++ r)).mpr ⟨r, rfl⟩

theorem containsSub_iff (s t : Str) :
    containsSub s t = true ↔ ∃ a b, s = a ++ (t ++ b) := by
  unfold containsSub
  rw [List.any_eq_true]
  constructor
  · rintro ⟨i, _, hb⟩
    obtain ⟨r, hr⟩ := (beginsWith_iff t (s.drop i)).mp hb
    exact ⟨s.take i, r, by rw [← hr]; exact (List.take_append_drop i s).symm⟩
  · rintro ⟨a, b, rfl⟩
    refine ⟨a.length, ?_, ?_⟩
    · rw [List.mem_range]
      simp only [List.length_append]
      omega
    · rw [List.drop_left]
      exact (beginsWith_iff t (t ++ b)).mpr ⟨b, rfl⟩

theorem containsSub_self (t : Str) : containsSub t t = true :=
  (containsSub_iff t t).mpr ⟨[], [], by simp⟩

theorem containsSub_append_right (s t u : Str) (h : containsSub t u = true) :
    containsSub (s ++ t) u = true := by
  obtain ⟨a, b, rfl⟩ := (containsSub_iff t u).mp h
  exact (containsSub_iff _ u).mpr ⟨s ++ a, b, by simp [List.append_assoc]⟩

theorem containsSub_append_left (s t u : Str) (h : containsSub s u = true) :
    containsSub (s ++ t) u = true := by
  obtain ⟨a, b, rfl⟩ := (containsSub_iff s u).mp h
  exact (containsSub_iff _ u).mpr ⟨a, b ++ t, by simp [List.append_assoc]⟩

theorem retryLoop_posts_le (base : Str) (post : Nat → PostOutcome) :
    ∀ (n idx : Nat) (lastErr : Option Nat),
      (retryLoop base post n idx lastErr).posts ≤ n := by
  intro n
  induction n with
  | zero => intro idx lastErr; exact Nat.le_refl 0
  | succ m ih =>
    intro idx lastErr
    rw [retryLoop]
    by_cases hb : isBusy (post idx) = true
    · rw [if_pos hb]
      exact Nat.succ_le_succ (ih (idx + 1) lastErr)
    · rw [if_neg hb]
      exact Nat.succ_le_succ (Nat.zero_le m)

theorem retryLoop_reach (base : Str) (post : Nat → PostOutcome) :
    ∀ (i n idx : Nat) (lastErr : Option Nat), i < n →
      (∀ j, j < i → isBusy (post (idx + j)) = true) →
      isBusy (post (idx + i)) = false →
      retryLoop base post n idx lastErr =
        ⟨stepExit base (post (idx + i)), i + 1, i⟩ := by
  intro i
  induction i with
  | zero =>
    intro n idx lastErr hn _ hstop
    cases n with
    | zero => omega
    | succ m =>
      rw [Nat.add_zero] at hstop
      have hneg : ¬ isBusy (post idx) = true := by
        rw [hstop]; exact Bool.false_ne_true
      rw [retryLoop, if_neg hneg]
      simp
  | succ i ih =>
    intro n idx lastErr hn hbusy hstop
    cases n with
    | zero => omega
    | succ m =>
      have hb0 : isBusy (post idx) = true := by
        have := hbusy 0 (Nat.succ_pos i)
        rwa [Nat.add_zero] at this
      rw [retryLoop, if_pos hb0]
      have hrec := ih m (idx + 1) lastErr (by omega)
        (fun j hj => by
          have := hbusy (j + 1) (by omega)
          rwa [show idx + (j + 1) = idx + 1 + j by omega] at this)
        (by
          have := hstop
          rwa [show idx + (i + 1) = idx + 1 + i by omega] at this)
      show (⟨(retryLoop base post m (idx + 1) lastErr).exit,
        (retryLoop base post m (idx + 1) lastErr).posts + 1,
        (retryLoop base post m (idx + 1) lastErr).sleeps + 1⟩ : LoopTrace) = _
      rw [hrec]
      have harg : idx + (i + 1) = idx + 1 + i := by omega
      rw [harg]

theorem retryLoop_allBusy (base : Str) (post : Nat → PostOutcome) :
    ∀ (n idx : Nat) (lastErr : Option Nat),
      (∀ j, j < n → isBusy (post (idx + j)) = true) →
      retryLoop base post n idx lastErr = ⟨.fellThrough lastErr, n, n⟩ := by
  intro n
  induction n with
  | zero => intro idx lastErr _; rfl
  | succ m ih =>
    intro idx lastErr hbusy
    have hb0 : isBusy (post idx) = true := by
      have := hbusy 0 (Nat.succ_pos m)
      rwa [Nat.add_zero] at this
    rw [retryLoop, if_pos hb0]
    have hrec := ih (idx + 1) lastErr (fun j hj => by
      have := hbusy (j + 1) (by omega)
      rwa [show idx + (j + 1) = idx + 1 + j by omega] at this)
    show (⟨(retryLoop base post m (idx + 1) lastErr).exit,
      (retryLoop base post m (idx + 1) lastErr).posts + 1,
      (retryLoop base post m (idx + 1) lastErr).sleeps + 1⟩ : LoopTrace) = _
    rw [hrec]

theorem start_job_primaryPosts (base source : Str) (post : Str → Nat → PostOutcome) :
    (start_job base source post).primaryPosts =
      (retryLoop base (post source) 6 0 none).posts := by
  simp only [start_job]
  cases (retryLoop base (post source) 6 0 none).exit <;> rfl

theorem start_job_sleeps (base source : Str) (post : Str → Nat → PostOutcome) :
    (start_job base source post).sleeps =
      (retryLoop base (post source) 6 0 none).sleeps := by
  simp only [start_job]
  cases (retryLoop base (post source) 6 0 none).exit <;> rfl

theorem start_job_returned (base source : Str) (post : Str → Nat → PostOutcome)
    (handle : Str)
    (hexit : (retryLoop base (post source) 6 0 none).exit = LoopExit.returned handle) :
    start_job base source post =
      ⟨StartResult.ok handle, (retryLoop base (post source) 6 0 none).posts,
        (retryLoop base (post source) 6 0 none).sleeps, 0, none⟩ := by
  simp only [start_job]
  rw [hexit]

theorem start_job_missingLoc (base source : Str) (post : Str → Nat → PostOutcome)
    (hexit : (retryLoop base (post source) 6 0 none).exit = LoopExit.missingLocation) :
    start_job base source post =
      ⟨StartResult.missingLocation, (retryLoop base (post source) 6 0 none).posts,
        (retryLoop base (post source) 6 0 none).sleeps, 0, none⟩ := by
  simp only [start_job]
  rw [hexit]

theorem start_job_fellThrough (base source : Str) (post : Str → Nat → PostOutcome)
    (lastErr : Option Nat)
    (hexit : (retryLoop base (post source) 6 0 none).exit = LoopExit.fellThrough lastErr) :
    start_job base source post =
      ⟨fallbackResult base lastErr (post (fallbackSourceFor source) 0),
        (retryLoop base (post source) 6 0 none).posts,
        (retryLoop base (post source) 6 0 none).sleeps, 1,
        some (fallbackSourceFor source)⟩ := by
  simp only [start_job]
  rw [hexit]

theorem fallbackResult_failed (base : Str) (lastErr : Option Nat) (o : PostOutcome)
    (h : fallbackFails o = true) : fallbackResult base lastErr o = .failed lastErr := by
  cases o with
  | netErr => rfl
  | resp status location =>
    simp only [fallbackFails, Bool.or_eq_true] at h
    cases h with
    | inl hs => simp [fallbackResult, hs]
    | inr hl =>
      cases location with
      | none =>
        simp only [fallbackResult]
        split <;> rfl
      | some l =>
        simp only [locationMissing] at hl
        simp only [fallbackResult, hl]
        split <;> rfl

/-- C1: a 409 (device busy) response causes a retry after a one-second
pause, with at most 6 total submission attempts against the chosen source,
and any non-409 error response stops the retry loop for that source
immediately: if the first i attempts are busy and attempt i (i < 6)
returns a non-409 4xx/5xx, exactly i+1 POSTs are made against the chosen
source and exactly i one-second sleeps are performed. -/
theorem C1_busy_retry_budget (base source : Str) (post : Str → Nat → PostOutcome)
    (i : Nat) (hi : i < 6)
    (hbusy : ∀ j, j < i → isBusy (post source j) = true)
    (s : Nat) (loc : Option Str)
    (hresp : post source i = PostOutcome.resp s loc)
    (hs : statusRaises s = true) (h409 : s ≠ 409) :
    (∀ env : Str → Nat → PostOutcome,
      (start_job base source env).primaryPosts ≤ 6) ∧
    (start_job base source post).primaryPosts = i + 1 ∧
    (start_job base source post).sleeps = i ∧
    (retryLoop base (post source) 6 0 none).exit =
      LoopExit.fellThrough (some s) := by
  have hnb : isBusy (post source i) = false := by
    rw [hresp]
    simp only [isBusy, beq_eq_false_iff_ne, ne_eq]
    exact h409
  have hloop := retryLoop_reach base (post source) i 6 0 none hi
    (fun j hj => by simpa using hbusy j hj) (by simpa using hnb)
  refine ⟨?_, ?_, ?_, ?_⟩
  · intro env
    rw [start_job_primaryPosts]
    exact retryLoop_posts_le base (env source) 6 0 none
  · rw [start_job_primaryPosts, hloop]
  · rw [start_job_sleeps, hloop]
  · rw [hloop]
    show stepExit base (post source (0 + i)) = LoopExit.fellThrough (some s)
    rw [Nat.zero_add, hresp]
    simp [stepExit, hs]

/-- Witness for C1: two 409 responses then a 500 on the third attempt. -/
theorem C1_busy_retry_budget_witness :
    (∀ env : Str → Nat → PostOutcome,
      (start_job "b".toList "Feeder".toList env).primaryPosts ≤ 6) ∧
    (start_job "b".toList "Feeder".toList c1Env).primaryPosts = 2 + 1 ∧
    (start_job "b".toList "Feeder".toList c1Env).sleeps = 2 ∧
    (retryLoop "b".toList (c1Env "Feeder".toList) 6 0 none).exit =
      LoopExit.fellThrough (some 500) :=
  C1_busy_retry_budget "b".toList "Feeder".toList c1Env 2 (by decide)
    (by intro j hj; interval_cases j <;> decide) 500 none (by decide)
    (by decide) (by decide)

/-- C2: whenever the primary-source attempts are exhausted or rejected
(the retry loop fell through), exactly one fallback POST is made, against
the opposite source (Feeder for a Platen primary, Platen for anything
else, in particular Feeder); and if that single fallback attempt also
fails, the submit operation fails surfacing the primary loop's last
error. -/
theorem C2_single_fallback (base source : Str) (post : Str → Nat → PostOutcome)
    (lastErr : Option Nat)
    (hfell : (retryLoop base (post source) 6 0 none).exit =
      LoopExit.fellThrough lastErr) :
    (start_job base source post).fallbackPosts = 1 ∧
    (start_job base source post).fallbackSource = some (fallbackSourceFor source) ∧
    fallbackSourceFor "Platen".toList = "Feeder".toList ∧
    fallbackSourceFor "Feeder".toList = "Platen".toList ∧
    (fallbackFails (post (fallbackSourceFor source) 0) = true →
      (start_job base source post).result = StartResult.failed lastErr) := by
  have hsj := start_job_fellThrough base source post lastErr hfell
  refine ⟨by rw [hsj], by rw [hsj], by decide, by decide, ?_⟩
  intro hfb
  rw [hsj]
  exact fallbackResult_failed base lastErr _ hfb

/-- Witness for C2: all six primary attempts busy, fallback gets a 503. -/
theorem C2_single_fallback_witness :
    ((retryLoop "b".toList (c2Env "Feeder".toList) 6 0 none).exit =
      LoopExit.fellThrough none) ∧
    ((start_job "b".toList "Feeder".toList c2Env).fallbackPosts = 1 ∧
     (start_job "b".toList "Feeder".toList c2Env).fallbackSource =
       some (fallbackSourceFor "Feeder".toList) ∧
     fallbackSourceFor "Platen".toList = "Feeder".toList ∧
     fallbackSourceFor "Feeder".toList = "Platen".toList ∧
     (fallbackFails (c2Env (fallbackSourceFor "Feeder".toList) 0) = true →
       (start_job "b".toList "Feeder".toList c2Env).result =
         StartResult.failed none)) :=
  ⟨by decide, C2_single_fallback "b".toList "Feeder".toList c2Env none (by decide)⟩

/-- C3 counterexample: with the primary source accepted but carrying no
Location header, `start_job` makes no fallback POST at all and the
missing-Location protocol error propagates directly to the caller, even
though the opposite source would have been accepted with a valid Location
(the claim says the fallback is triggered instead of propagating). -/
theorem C3_missing_location_counterexample :
    (start_job "http://h/eSCL/".toList "Feeder".toList c3Env).result =
      StartResult.missingLocation ∧
    (start_job "http://h/eSCL/".toList "Feeder".toList c3Env).fallbackPosts = 0 ∧
    fallbackFails (c3Env (fallbackSourceFor "Feeder".toList) 0) = false := by
  decide

/-- C3 (amended): an accepted submission in the primary retry loop whose
response carries no (or an empty) job-location header raises a protocol
error that propagates immediately to the caller, with no fallback POST;
only the fallback block itself swallows its own missing-Location error. -/
theorem C3_missing_location_propagates (base source : Str)
    (post : Str → Nat → PostOutcome) (i : Nat) (hi : i < 6)
    (hbusy : ∀ j, j < i → isBusy (post source j) = true)
    (s : Nat) (loc : Option Str)
    (hresp : post source i = PostOutcome.resp s loc)
    (hs : statusRaises s = false) (hloc : locationMissing loc = true) :
    (start_job base source post).result = StartResult.missingLocation ∧
    (start_job base source post).fallbackPosts = 0 := by
  have h409 : s ≠ 409 := by
    intro h
    rw [h] at hs
    exact absurd hs (by decide)
  have hnb : isBusy (post source i) = false := by
    rw [hresp]
    simp only [isBusy, beq_eq_false_iff_ne, ne_eq]
    exact h409
  have hloop := retryLoop_reach base (post source) i 6 0 none hi
    (fun j hj => by simpa using hbusy j hj) (by simpa using hnb)
  have hstep : stepExit base (post source (0 + i)) = LoopExit.missingLocation := by
    rw [Nat.zero_add, hresp]
    cases loc with
    | none => simp [stepExit, hs]
    | some l =>
      simp only [locationMissing] at hloc
      simp [stepExit, hs, hloc]
  have hexit : (retryLoop base (post source) 6 0 none).exit =
      LoopExit.missingLocation := by
    rw [hloop]
    exact hstep
  have hsj := start_job_missingLoc base source post hexit
  exact ⟨by rw [hsj], by rw [hsj]⟩

/-- Witness for the amended C3: immediate 201 with no Location header. -/
theorem C3_missing_location_propagates_witness :
    (0 < 6) ∧
    ((start_job "b".toList "Feeder".toList c3wEnv).result =
      StartResult.missingLocation ∧
     (start_job "b".toList "Feeder".toList c3wEnv).fallbackPosts = 0) :=
  ⟨by decide, C3_missing_location_propagates "b".toList "Feeder".toList c3wEnv 0
    (by decide) (fun j hj => absurd hj (by omega)) 201 none (by decide)
    (by decide) (by decide)⟩

/-- C7: a job-location header received on acceptance is used as the handle
returned by `start_job` after resolution: a value starting with "/" is
resolved to an absolute URI anchored at the client's base endpoint (the
base is a leading segment of the handle), while any other value is passed
through unchanged. -/
theorem C7_job_location_resolution (base source loc : Str)
    (post : Str → Nat → PostOutcome) (i : Nat) (hi : i < 6)
    (hbusy : ∀ j, j < i → isBusy (post source j) = true)
    (s : Nat) (hresp : post source i = PostOutcome.resp s (some loc))
    (hs : statusRaises s = false) (hne : loc.isEmpty = false) :
    (start_job base source post).result =
      StartResult.ok (resolveJobLocation base loc) ∧
    (startsWithSlash loc = true →
      resolveJobLocation base loc = urljoin base (lstripSlashes loc) ∧
      beginsWith (resolveJobLocation base loc) base = true) ∧
    (startsWithSlash loc = false → resolveJobLocation base loc = loc) := by
  have h409 : s ≠ 409 := by
    intro h
    rw [h] at hs
    exact absurd hs (by decide)
  have hnb : isBusy (post source i) = false := by
    rw [hresp]
    simp only [isBusy, beq_eq_false_iff_ne, ne_eq]
    exact h409
  have hloop := retryLoop_reach base (post source) i 6 0 none hi
    (fun j hj => by simpa using hbusy j hj) (by simpa using hnb)
  have hstep : stepExit base (post source (0 + i)) =
      LoopExit.returned (resolveJobLocation base loc) := by
    rw [Nat.zero_add, hresp]
    simp [stepExit, hs, hne]
  have hexit : (retryLoop base (post source) 6 0 none).exit =
      LoopExit.returned (resolveJobLocation base loc) := by
    rw [hloop]
    exact hstep
  have hsj := start_job_returned base source post _ hexit
  refine ⟨by rw [hsj], ?_, ?_⟩
  · intro hsw
    unfold resolveJobLocation
    rw [if_pos hsw]
    exact ⟨rfl, beginsWith_append base (lstripSlashes loc)⟩
  · intro hsw
    unfold resolveJobLocation
    rw [if_neg (by rw [hsw]; exact Bool.false_ne_true)]

/-- Witness for C7: one instance with a relative Location and one with an
absolute Location, both accepted on the first attempt. -/
theorem C7_job_location_resolution_witness :
    ((start_job "http://h/eSCL/".toList "Feeder".toList c7EnvRel).result =
       StartResult.ok (resolveJobLocation "http://h/eSCL/".toList "/Jobs/9".toList) ∧
     (startsWithSlash "/Jobs/9".toList = true →
       resolveJobLocation "http://h/eSCL/".toList "/Jobs/9".toList =
         urljoin "http://h/eSCL/".toList (lstripSlashes "/Jobs/9".toList) ∧
       beginsWith (resolveJobLocation "http://h/eSCL/".toList "/Jobs/9".toList)
         "http://h/eSCL/".toList = true) ∧
     (startsWithSlash "/Jobs/9".toList = false →
       resolveJobLocation "http://h/eSCL/".toList "/Jobs/9".toList =
         "/Jobs/9".toList)) ∧
    ((start_job "http://h/eSCL/".toList "Feeder".toList c7EnvAbs).result =
       StartResult.ok
         (resolveJobLocation "http://h/eSCL/".toList "http://h/eSCL/Jobs/9".toList) ∧
     (startsWithSlash "http://h/eSCL/Jobs/9".toList = true →
       resolveJobLocation "http://h/eSCL/".toList "http://h/eSCL/Jobs/9".toList =
         urljoin "http://h/eSCL/".toList (lstripSlashes "http://h/eSCL/Jobs/9".toList) ∧
       beginsWith
         (resolveJobLocation "http://h/eSCL/".toList "http://h/eSCL/Jobs/9".toList)
         "http://h/eSCL/".toList = true) ∧
     (startsWithSlash "http://h/eSCL/Jobs/9".toList = false →
       resolveJobLocation "http://h/eSCL/".toList "http://h/eSCL/Jobs/9".toList =
         "http://h/eSCL/Jobs/9".toList)) :=
  ⟨C7_job_location_resolution "http://h/eSCL/".toList "Feeder".toList
      "/Jobs/9".toList c7EnvRel 0 (by decide) (fun j hj => absurd hj (by omega))
      201 (by decide) (by decide) (by decide),
    C7_job_location_resolution "http://h/eSCL/".toList "Feeder".toList
      "http://h/eSCL/Jobs/9".toList c7EnvAbs 0 (by decide)
      (fun j hj => absurd hj (by omega)) 201 (by decide) (by decide) (by decide)⟩

theorem filter_isDelete_map_write (l : List Str) :
    (l.map FetchAction.write).filter isDelete = [] := by
  induction l with
  | nil => rfl
  | cons c t ih => simp [isDelete, ih]

/-- C8: for every fetched job — success, HTTP error status, or a transport
exception raised by the GET itself — the release (DELETE of the job
handle) is issued exactly once, and a failure of the release itself never
changes the caller-visible result. -/
theorem C8_release_once (job_location : Str) (out : FetchOutcome) (relRaises : Bool) :
    ((fetch_pdf job_location out relRaises).2).filter isDelete =
      [FetchAction.delete job_location] ∧
    (fetch_pdf job_location out relRaises).1 = (fetch_pdf job_location out true).1 := by
  constructor
  · cases out with
    | netErr => rfl
    | resp status chunks =>
      by_cases hs : statusRaises status = true
      · simp [fetch_pdf, hs, isDelete]
      · simp only [Bool.not_eq_true] at hs
        simp only [fetch_pdf, hs, Bool.false_eq_true, if_false]
        rw [List.filter_append, List.filter_append]
        simp [isDelete, filter_isDelete_map_write]
  · rfl

/-- C9: the scan request document built for the Platen input source always
carries the Simplex duplex flag; the builder accepts no duplex preference
at all, so no supplied preference can change this. -/
theorem C9_platen_simplex (dpi : Nat) (color_mode page_size : Str) :
    containsSub (_build_job_xml dpi color_mode page_size "Platen".toList)
      "<pwg:Duplex>Simplex</pwg:Duplex>".toList = true := by
  unfold _build_job_xml
  apply containsSub_append_right
  apply containsSub_append_right
  apply containsSub_append_right
  apply containsSub_append_right
  apply containsSub_append_right
  apply containsSub_append_left
  exact containsSub_self xmlDuplex

/-- C10: building the request never fails on an out-of-enum colour mode
(the builder is a total function); the normalised mode is Grayscale
exactly when the lowercased colour mode starts with "gray", and Color for
every other input (including invalid or empty strings); and the built
document carries the normalised mode inside the ColorMode element. -/
theorem C10_color_mode_mapping (dpi : Nat) (color_mode page_size source : Str) :
    (normalizeColorMode color_mode = "Grayscale".toList ↔
      beginsWith (lowerStr color_mode) "gray".toList = true) ∧
    (normalizeColorMode color_mode = "Color".toList ↔
      beginsWith (lowerStr color_mode) "gray".toList = false) ∧
    containsSub (_build_job_xml dpi color_mode page_size source)
      (xmlCMo ++ (normalizeColorMode color_mode ++ xmlCMc)) = true := by
  refine ⟨?_, ?_, ?_⟩
  · unfold normalizeColorMode
    by_cases h : beginsWith (lowerStr color_mode) "gray".toList = true
    · rw [if_pos h, h]
      constructor
      · intro _; rfl
      · intro _; rfl
    · rw [if_neg h]
      simp only [Bool.not_eq_true] at h
      rw [h]
      constructor
      · intro hc; exact absurd hc (by decide)
      · intro hf; exact absurd hf (by decide)
  · unfold normalizeColorMode
    by_cases h : beginsWith (lowerStr color_mode) "gray".toList = true
    · rw [if_pos h, h]
      constructor
      · intro hc; exact absurd hc (by decide)
      · intro hf; exact absurd hf (by decide)
    · rw [if_neg h]
      simp only [Bool.not_eq_true] at h
      rw [h]
      constructor
      · intro _; rfl
      · intro _; rfl
  · unfold _build_job_xml
    apply containsSub_append_right
    apply containsSub_append_right
    apply containsSub_append_right
    apply containsSub_append_left
    exact containsSub_self (xmlCMo ++ (normalizeColorMode color_mode ++ xmlCMc))

theorem textual_eq_amended (raw : Str) :
    textualEvidence raw = amendedTextualEvidence raw := by
  simp only [textualEvidence, adf_indicators, amendedTextualEvidence,
    List.any_cons, List.any_nil, id_eq, Bool.or_false, Bool.or_assoc]

/-- C4 counterexample: the status text "<a>media feeder</a>" satisfies the
code's media+feeder indicator (Feeder chosen) but contains none of the
claim's loaded keywords, so the claim's rule yields Platen; conversely
"<b>feeder present</b>" satisfies the claim's feeder+present pair but none
of the code's nine indicators (Platen chosen). Structural evidence is
absent in both parsed trees. -/
theorem C4_evidence_counterexample :
    resolve_input_source none
        (StatusFetch.ok "<a>media feeder</a>".toList
          (some [⟨"a".toList, "media feeder".toList⟩])) = "Feeder".toList ∧
    claimResolve none
        (StatusFetch.ok "<a>media feeder</a>".toList
          (some [⟨"a".toList, "media feeder".toList⟩])) = "Platen".toList ∧
    resolve_input_source none
        (StatusFetch.ok "<b>feeder present</b>".toList
          (some [⟨"b".toList, "feeder present".toList⟩])) = "Platen".toList ∧
    claimResolve none
        (StatusFetch.ok "<b>feeder present</b>".toList
          (some [⟨"b".toList, "feeder present".toList⟩])) = "Feeder".toList := by
  decide

/-- C4 (amended): the textual evidence actually tested is the nine keyword
co-occurrence pairs of `amendedTextualEvidence` (adf+loaded, adf+present,
adf+haspaper, feeder+loaded, inputsource+feeder, media+feeder,
documentfeeder+loaded-or-ready, inputtray+adf, paper+adf-or-feeder); the
decision returns Feeder exactly when the override is Feeder, or the
override is not Platen and a well-formed status report satisfies one of
those pairs or the structural check; in every other case (fetch or parse
failure, override Platen, no evidence) it returns Platen. -/
theorem C4_nine_pair_evidence (input_source : Option Str) (st : StatusFetch)
    (raw0 : Str) :
    textualEvidence raw0 = amendedTextualEvidence raw0 ∧
    (resolve_input_source input_source st = "Feeder".toList ↔
      (input_source = some "Feeder".toList ∨
        (input_source ≠ some "Platen".toList ∧
          ∃ raw elems, st = StatusFetch.ok raw (some elems) ∧
            (amendedTextualEvidence raw = true ∨ structuralEvidence elems = true)))) ∧
    (resolve_input_source input_source st = "Feeder".toList ∨
      resolve_input_source input_source st = "Platen".toList) := by
  have hfp : ("Platen".toList : Str) ≠ "Feeder".toList := by decide
  refine ⟨textual_eq_amended raw0, ?_, ?_⟩
  · by_cases hf : input_source = some "Feeder".toList
    · simp only [resolve_input_source, if_pos hf]
      exact ⟨fun _ => Or.inl hf, fun _ => by trivial⟩
    · by_cases hp : input_source = some "Platen".toList
      · simp only [resolve_input_source, if_neg hf, if_pos hp]
        constructor
        · intro h; exact absurd h hfp
        · rintro (h | ⟨hnp, _⟩)
          · exact absurd h hf
          · exact absurd hp hnp
      · simp only [resolve_input_source, if_neg hf, if_neg hp]
        cases st with
        | fail =>
          simp only [choose_input_source]
          constructor
          · intro h; exact absurd h hfp
          · rintro (h | ⟨_, raw, elems, hok, _⟩)
            · exact absurd h hf
            · exact StatusFetch.noConfusion hok
        | ok raw parsed =>
          cases parsed with
          | none =>
            simp only [choose_input_source]
            constructor
            · intro h; exact absurd h hfp
            · rintro (h | ⟨_, raw2, elems2, hok, _⟩)
              · exact absurd h hf
              · injection hok with h1 h2
                exact Option.noConfusion h2
          | some elems =>
            simp only [choose_input_source]
            by_cases hev : (textualEvidence raw || structuralEvidence elems) = true
            · rw [if_pos hev]
              constructor
              · intro _
                refine Or.inr ⟨hp, raw, elems, rfl, ?_⟩
                rw [Bool.or_eq_true] at hev
                rcases hev with ht | hst
                · exact Or.inl (by rw [← textual_eq_amended raw]; exact ht)
                · exact Or.inr hst
              · intro _; rfl
            · rw [if_neg hev]
              constructor
              · intro h; exact absurd h hfp
              · rintro (h | ⟨_, raw2, elems2, hok, hev2⟩)
                · exact absurd h hf
                · injection hok with h1 h2
                  injection h2 with h2
                  subst h1
                  subst h2
                  apply absurd _ hev
                  rw [Bool.or_eq_true]
                  rcases hev2 with ht | hst
                  · exact Or.inl (by rw [textual_eq_amended raw]; exact ht)
                  · exact Or.inr hst
  · by_cases hf : input_source = some "Feeder".toList
    · exact Or.inl (by simp only [resolve_input_source, if_pos hf])
    · by_cases hp : input_source = some "Platen".toList
      · exact Or.inr (by simp only [resolve_input_source, if_neg hf, if_pos hp])
      · simp only [resolve_input_source, if_neg hf, if_neg hp]
        cases st with
        | fail => exact Or.inr rfl
        | ok raw parsed =>
          cases parsed with
          | none => exact Or.inr rfl
          | some elems =>
            simp only [choose_input_source]
            by_cases hev : (textualEvidence raw || structuralEvidence elems) = true
            · rw [if_pos hev]; exact Or.inl rfl
            · rw [if_neg hev]; exact Or.inr rfl

/-- C6 counterexample: the raw content "adf loaded" is not well-formed XML
(the structural parse fails), and the keyword search would find its
adf+loaded evidence, yet `choose_input_source` returns Platen without
consulting the retained raw text, contrary to the claim. -/
theorem C6_malformed_counterexample :
    textualEvidence "adf loaded".toList = true ∧
    choose_input_source (StatusFetch.ok "adf loaded".toList none) =
      "Platen".toList := by
  decide

/-- C6 (amended): neither a status-fetch failure nor a parse failure ever
raises out of `choose_input_source`, but on raw content that is not
well-formed XML the keyword search is skipped entirely and Platen is
returned, whatever the raw text contains. -/
theorem C6_malformed_skips_keywords (raw : Str) :
    choose_input_source (StatusFetch.ok raw none) = "Platen".toList ∧
    choose_input_source StatusFetch.fail = "Platen".toList :=
  ⟨rfl, rfl⟩
